import Mathlib

/-!
Verification development for the prompt-queue system
(`prompt_queue_system.py` together with the static template provider
`dual_output_agent.py`).

The Python code is shallowly embedded: Python strings are Lean `String`s,
but every Python string primitive used by the code (`strip`, `lower`,
`split`, `startswith`, `endswith`, the `in` substring test, `Path.stem`)
is re-implemented below by structural recursion over the character list,
so that every definition evaluates inside the kernel.  The filesystem is
modelled as insertion-ordered association lists from names to entries;
`datetime.now()` is modelled by timestamp strings supplied as explicit
parameters (one triple of readings per processed file).
-/

namespace PromptQueue

/-- Whitespace characters stripped by Python's `str.strip()`. -/
def isPySpace (c : Char) : Bool :=
  c == ' ' || c == '\t' || c == '\n' || c == '\r' || c == '\x0b' || c == '\x0c'

/-- Model of Python `str.strip()`: drop whitespace from both ends. -/
def pyStrip (s : String) : String :=
  String.mk (((s.data.dropWhile isPySpace).reverse.dropWhile isPySpace).reverse)

/-- Split a character list at newline characters (model of `str.split('\n')`). -/
def splitNLAux : List Char → List Char → List (List Char)
  | [], acc => [acc.reverse]
  | c :: t, acc =>
    if c == '\n' then acc.reverse :: splitNLAux t [] else splitNLAux t (c :: acc)

/-- Model of Python `str.split('\n')`. -/
def pySplitNL (s : String) : List String :=
  (splitNLAux s.data []).map String.mk

/-- Lower-case an ASCII letter (model of `str.lower()` on the ASCII inputs used here). -/
def lowerChar (c : Char) : Char :=
  if 'A' ≤ c && c ≤ 'Z' then Char.ofNat (c.toNat + 32) else c

/-- Model of Python `str.lower()`. -/
def pyLower (s : String) : String :=
  String.mk (s.data.map lowerChar)

/-- Decide whether the first list is a prefix of the second. -/
def isPrefixL : List Char → List Char → Bool
  | [], _ => true
  | _ :: _, [] => false
  | a :: as, b :: bs => a == b && isPrefixL as bs

/-- Model of Python `str.startswith(pre)`. -/
def pyStartsWith (s pre : String) : Bool :=
  isPrefixL pre.data s.data

/-- Model of Python `str.endswith(suf)`. -/
def pyEndsWith (s suf : String) : Bool :=
  isPrefixL suf.data.reverse s.data.reverse

/-- Substring search on character lists. -/
def containsSubL : List Char → List Char → Bool
  | [], sub => sub.isEmpty
  | c :: t, sub => isPrefixL sub (c :: t) || containsSubL t sub

/-- Model of the Python substring test `sub in s`. -/
def pyIn (sub s : String) : Bool :=
  containsSubL s.data sub.data

/-- Model of the Python character test `c in s`. -/
def pyInChar (c : Char) (s : String) : Bool :=
  s.data.contains c

/-- Break a character list at the first `':'` (model of `str.split(':', 1)`
for inputs known to contain a colon): returns the parts before and after it. -/
def breakAtColon : List Char → List Char × List Char
  | [] => ([], [])
  | c :: t =>
    if c == ':' then ([], t)
    else
      let r := breakAtColon t
      (c :: r.1, r.2)

/-- Model of `pathlib.Path(name).stem`: the name without its final suffix;
a leading dot or a trailing dot does not start a suffix. -/
def stem (name : String) : String :=
  let r := name.data.reverse
  let after := r.takeWhile (fun c => c != '.')
  if r.contains '.' && decide (0 < after.length) && decide (after.length + 1 < name.data.length)
  then String.mk ((r.drop (after.length + 1)).reverse)
  else name

/-- Python string comparison (lexicographic on code points). -/
def ltCharList : List Char → List Char → Bool
  | [], [] => false
  | [], _ :: _ => true
  | _ :: _, [] => false
  | a :: as, b :: bs => if a < b then true else if b < a then false else ltCharList as bs

/-- Model of Python `<` on strings. -/
def pyStrLt (a b : String) : Bool := ltCharList a.data b.data

/-- Model of Python `<=` on strings. -/
def pyStrLe (a b : String) : Bool := pyStrLt a b || a == b

/-- Join strings with newlines (model of `'\n'.join(xs)`). -/
def joinNL : List String → String
  | [] => ""
  | [s] => s
  | s :: t => s ++ "\n" ++ joinNL t

/-- Ordered association-list lookup (first match), the model of reading a
directory entry or a `dict` key. -/
def alookup {α : Type} : List (String × α) → String → Option α
  | [], _ => none
  | p :: t, k => if p.1 == k then some p.2 else alookup t k

/-- Ordered association-list update: overwrite an existing key in place,
otherwise append (the model of writing a file into a directory and of
Python `dict` assignment). -/
def awrite {α : Type} (m : List (String × α)) (k : String) (v : α) : List (String × α) :=
  if m.any (fun p => p.1 == k) then
    m.map (fun p => if p.1 == k then (k, v) else p)
  else m ++ [(k, v)]

/-- Keys of an association list. -/
def keys {α : Type} (m : List (String × α)) : List String := m.map Prod.fst

/-- Embedding of `DualOutputDecisionAgent.create_emergency_room_logic`:
the static (logic text, mermaid chart) pair for the emergency-room topic. -/
def create_emergency_room_logic : String × String :=
  ("EMERGENCY ROOM DECISION LOGIC
================================

IF patient_experiencing_symptoms THEN
    IF severe_symptoms = TRUE THEN
        action = call_911_immediately
        outcome = emergency_transport
    ELSE IF severe_symptoms = FALSE THEN
        evaluate_urgency_level()
        
        IF urgency_level = HIGH THEN
            IF urgent_care_available = TRUE THEN
                action = visit_emergency_room
                outcome = receive_urgent_care
            ELSE
                action = schedule_primary_care
                outcome = receive_standard_care
        ELSE IF urgency_level = LOW THEN
            action = schedule_primary_care
            outcome = receive_standard_care
        END IF
    END IF
END IF

CONDITION DEFINITIONS:
- severe_symptoms: chest_pain OR difficulty_breathing OR severe_bleeding OR loss_of_consciousness
- high_urgency: temperature > 39°C OR severe_pain OR breathing_difficulty
- urgent_care_available: emergency_room_wait_time < 2_hours

ACTION PRIORITIES:
1. life_threatening = call_911
2. high_urgency = emergency_room
3. low_urgency = primary_care
",
   "```mermaid
flowchart TD
    A[Patient experiencing symptoms] --> B\x7bSevere symptoms?\x7d
    B -->|Yes| C[Call 911 immediately]
    B -->|No| D[Evaluate urgency level]
    C --> E[Emergency transport]
    D --> F\x7bUrgent care needed?\x7d
    F -->|High urgency| G\x7bEmergency room available?\x7d
    F -->|Low urgency| H[Schedule primary care]
    G -->|Yes| I[Visit emergency room]
    G -->|No| H
    H --> J[Receive standard care]
    I --> K[Receive urgent care]
    E --> K
    J --> L[Decision complete]
    K --> L
```")

/-- Embedding of `DualOutputDecisionAgent.create_software_deployment_logic`. -/
def create_software_deployment_logic : String × String :=
  ("SOFTWARE DEPLOYMENT DECISION LOGIC
===================================

IF code_ready_for_deployment THEN
    IF all_tests_passing = TRUE THEN
        IF code_review_required = TRUE THEN
            request_code_review()
            
            IF review_approved = TRUE THEN
                proceed_to_staging()
            ELSE
                fix_review_comments()
                GOTO code_review_required
            END IF
        ELSE
            proceed_to_staging()
        END IF
        
        staging_deployment()
        
        IF staging_tests_pass = TRUE THEN
            production_deployment()
            monitor_deployment()
            outcome = deployment_successful
        ELSE
            rollback_deployment()
            outcome = deployment_failed
        END IF
    ELSE
        fix_failing_tests()
        GOTO all_tests_passing
    END IF
END IF

GATE CONDITIONS:
- all_tests_passing: unit_tests AND integration_tests AND security_tests
- code_review_required: team_size > 3 OR production_system
- staging_tests_pass: functional_tests AND performance_tests

ROLLBACK TRIGGERS:
- error_rate > 1%
- response_time > 2x_baseline
- critical_functionality_broken
",
   "```mermaid
flowchart TD
    A[Code ready for deployment] --> B\x7bAll tests passing?\x7d
    B -->|No| C[Fix failing tests]
    C --> B
    B -->|Yes| D\x7bCode review required?\x7d
    D -->|Yes| E[Request code review]
    D -->|No| F[Proceed to staging]
    E --> G\x7bReview approved?\x7d
    G -->|No| H[Fix review comments]
    H --> E
    G -->|Yes| F
    F --> I[Staging deployment]
    I --> J\x7bStaging tests pass?\x7d
    J -->|No| K[Rollback deployment]
    J -->|Yes| L[Production deployment]
    L --> M[Monitor deployment]
    M --> N[Deployment successful]
    K --> O[Deployment failed]
    N --> P[Process complete]
    O --> P
```")

/-- Embedding of `DualOutputDecisionAgent.create_business_investment_logic`. -/
def create_business_investment_logic : String × String :=
  ("BUSINESS INVESTMENT DECISION LOGIC
===================================

IF investment_opportunity_identified THEN
    conduct_market_research()
    
    IF market_size > $1M THEN
        analyze_competitive_landscape()
        
        IF competitive_advantage = TRUE THEN
            conduct_financial_analysis()
            
            IF ROI > 20% AND payback_period < 3_years THEN
                assess_risks()
                
                IF risk_score < risk_tolerance THEN
                    action = proceed_with_investment
                    outcome = investment_approved
                ELSE IF risk_score >= risk_tolerance THEN
                    IF renegotiation_possible = TRUE THEN
                        renegotiate_terms()
                        GOTO conduct_financial_analysis
                    ELSE
                        action = decline_investment
                        outcome = investment_rejected
                    END IF
                END IF
            ELSE
                action = decline_investment
                outcome = investment_rejected
            END IF
        ELSE
            action = decline_investment
            outcome = investment_rejected
        END IF
    ELSE
        action = decline_investment
        outcome = investment_rejected
    END IF
END IF

EVALUATION CRITERIA:
- market_size: total_addressable_market > $1M
- competitive_advantage: unique_value_proposition OR cost_advantage OR differentiation
- ROI_calculation: (expected_return - investment_cost) / investment_cost
- risk_score: market_risk + execution_risk + financial_risk + regulatory_risk
- risk_tolerance: organization_risk_appetite AND available_capital
",
   "```mermaid
flowchart TD
    A[Investment opportunity identified] --> B[Conduct market research]
    B --> C\x7bMarket size > $1M?\x7d
    C -->|No| D[Decline investment]
    C -->|Yes| E[Analyze competitive landscape]
    E --> F\x7bCompetitive advantage?\x7d
    F -->|No| D
    F -->|Yes| G[Conduct financial analysis]
    G --> H\x7bROI > 20% AND payback < 3 years?\x7d
    H -->|No| D
    H -->|Yes| I[Assess risks]
    I --> J\x7bRisk score < tolerance?\x7d
    J -->|Yes| K[Proceed with investment]
    J -->|No| L\x7bRenegotiation possible?\x7d
    L -->|Yes| M[Renegotiate terms]
    M --> G
    L -->|No| D
    K --> N[Investment approved]
    D --> O[Investment rejected]
    N --> P[Decision complete]
    O --> P
```")

/-- Result of `PromptQueueSystem.read_prompt_content`: the parsed prompt
(dictionary keys `filename`, `content`, `metadata`, `timestamp`). -/
structure PromptData where
  filename : String
  content : String
  metadata : List (String × String)
  timestamp : String
deriving Repr, DecidableEq

/-- Result of `PromptQueueSystem.process_prompt`. -/
structure ProcessResult where
  prompt : PromptData
  topic : String
  logic_text : String
  mermaid_chart : String
  processed_at : String
deriving Repr, DecidableEq

/-- The `execution_metadata.json` document written by `move_to_run`
(exactly the four keys the code puts in the dict). -/
structure Metadata where
  original_prompt : String
  processed_at : String
  topic : String
  files_generated : List String
deriving Repr, DecidableEq

/-- Content of a file in the modelled filesystem.  A file whose content is
the JSON serialization of a metadata document is modelled as `json m`;
any other content is `text s`, on which the model of `json.loads` raises. -/
inductive FileContent where
  | text : String → FileContent
  | json : Metadata → FileContent
deriving Repr, DecidableEq

/-- A directory: an insertion-ordered map from file names to contents. -/
abbrev FileMap := List (String × FileContent)

/-- The filesystem state the queue system manipulates: the pending
(`queued/`) directory and the archive (`run/`) directory of
per-prompt subdirectories. -/
structure SysState where
  queued : List (String × String)
  run : List (String × FileMap)
deriving Repr, DecidableEq

/-- One iteration's three `datetime.now()` readings: the `timestamp` stored
by `read_prompt_content`, the `processed_at` stored by `process_prompt`,
and the `%Y%m%d_%H%M%S` string used by `move_to_run` for the directory name. -/
structure Clk where
  readAt : String
  procAt : String
  dirAt : String

/-- The record appended to `results` for each prompt in `process_all_prompts`. -/
structure ExecRecord where
  original_file : String
  topic : String
  files_created : List (String × String)
  processed_at : String
deriving Repr, DecidableEq

/-- The loop body of `read_prompt_content`: classify each (stripped) line as
a metadata line (`#` marker plus a colon), a skipped `---` line, or a body
line, accumulating the metadata dict and the body lines. -/
def parseGo : List String → List (String × String) → List String →
    List (String × String) × List String
  | [], m, b => (m, b)
  | line :: rest, m, b =>
    let l := pyStrip line
    if pyStartsWith l "#" && pyInChar ':' l then
      let kv := breakAtColon (l.data.drop 1)
      parseGo rest (awrite m (pyStrip (String.mk kv.1)) (pyStrip (String.mk kv.2))) b
    else if pyStartsWith l "---" then
      parseGo rest m b
    else
      parseGo rest m (b ++ [l])

/-- Embedding of `PromptQueueSystem.read_prompt_content`: strip the file
content, split into lines, separate metadata from body, and package the
result.  `ts` stands for the `datetime.now().isoformat()` reading. -/
def read_prompt_content (name content ts : String) : PromptData :=
  let lines := pySplitNL (pyStrip content)
  let mb := parseGo lines [] []
  { filename := name
    content := pyStrip (joinNL mb.2)
    metadata := mb.1
    timestamp := ts }

/-- Embedding of `PromptQueueSystem.extract_topic`: ordered first-match
keyword classification over the lowercased content. -/
def extract_topic (content : String) : String :=
  let content_lower := pyLower content
  if pyIn "emergency" content_lower then "emergency_room"
  else if pyIn "software" content_lower || pyIn "deployment" content_lower then
    "software_deployment"
  else if pyIn "business" content_lower || pyIn "investment" content_lower then
    "business_investment"
  else "generic_decision"

/-- Embedding of `PromptQueueSystem.process_prompt`: extract the topic and
select the static template pair (note the keyword set used for template
selection differs from `extract_topic`: it also tests `hospital`, and its
fallback is the business-investment pair).  `now` stands for the
`datetime.now().isoformat()` reading. -/
def process_prompt (prompt_data : PromptData) (now : String) : ProcessResult :=
  let content := prompt_data.content
  let low := pyLower content
  let pair :=
    if pyIn "emergency" low || pyIn "hospital" low then create_emergency_room_logic
    else if pyIn "software" low || pyIn "deployment" low then create_software_deployment_logic
    else if pyIn "business" low || pyIn "investment" low then create_business_investment_logic
    else create_business_investment_logic
  { prompt := prompt_data
    topic := extract_topic content
    logic_text := pair.1
    mermaid_chart := pair.2
    processed_at := now }

/-- The metadata document `move_to_run` writes for a prompt. -/
def metadataOf (name : String) (r : ProcessResult) : Metadata :=
  { original_prompt := name
    processed_at := r.processed_at
    topic := r.topic
    files_generated := ["decision_logic.txt", "flowchart.md"] }

/-- The sequence of file writes `move_to_run` performs inside the run
subdirectory `d`: the moved original prompt, `decision_logic.txt`,
`flowchart.md`, and `execution_metadata.json`. -/
def buildRunDir (d : FileMap) (name content : String) (r : ProcessResult) : FileMap :=
  let d1 := awrite d name (FileContent.text content)
  let d2 := awrite d1 "decision_logic.txt" (FileContent.text r.logic_text)
  let d3 := awrite d2 "flowchart.md" (FileContent.text r.mermaid_chart)
  awrite d3 "execution_metadata.json" (FileContent.json (metadataOf name r))

/-- Embedding of `PromptQueueSystem.move_to_run`: compute the timestamped
directory name, create the directory with `exist_ok=True` (reusing an
existing directory of the same name), move the original file out of the
pending directory into it, write the two artifacts and the metadata
document, and return the `files_created` path dictionary. -/
def move_to_run (st : SysState) (name content : String) (r : ProcessResult)
    (tsDir : String) : SysState × List (String × String) :=
  let dirName := tsDir ++ "_" ++ stem name
  let d0 := (alookup st.run dirName).getD []
  let d := buildRunDir d0 name content r
  ({ queued := st.queued.filter (fun p => p.1 != name)
     run := awrite st.run dirName d },
   [("prompt_file", dirName ++ "/" ++ name),
    ("logic_file", dirName ++ "/decision_logic.txt"),
    ("mermaid_file", dirName ++ "/flowchart.md"),
    ("metadata_file", dirName ++ "/execution_metadata.json")])

/-- A pending file name matched by `glob("*.txt")` or `glob("*.md")`
(glob does not match hidden files). -/
def isQueuedName (name : String) : Bool :=
  !(pyStartsWith name ".") && (pyEndsWith name ".txt" || pyEndsWith name ".md")

/-- Stable insertion (ascending by name) used to model Python `sorted`. -/
def insertAsc (x : String × String) : List (String × String) → List (String × String)
  | [] => [x]
  | y :: t => if pyStrLe x.1 y.1 then x :: y :: t else y :: insertAsc x t

/-- Stable ascending sort by name, the model of `sorted(queued_files)`. -/
def sortAsc : List (String × String) → List (String × String)
  | [] => []
  | x :: t => insertAsc x (sortAsc t)

/-- Embedding of `PromptQueueSystem.get_queued_prompts`: the `.txt` and
`.md` entries of the pending directory, sorted by name. -/
def get_queued_prompts (st : SysState) : List (String × String) :=
  sortAsc (st.queued.filter (fun p => isQueuedName p.1))

/-- One iteration of the `process_all_prompts` loop: read, process, and
move one pending file, producing the execution record. -/
def processOne (st : SysState) (f : String × String) (c : Clk) :
    SysState × ExecRecord :=
  let prompt_data := read_prompt_content f.1 f.2 c.readAt
  let r := process_prompt prompt_data c.procAt
  let mv := move_to_run st f.1 f.2 r c.dirAt
  (mv.1,
   { original_file := f.1
     topic := r.topic
     files_created := mv.2
     processed_at := r.processed_at })

/-- The `process_all_prompts` loop over the listing, threading the state;
`clock i` supplies the `datetime.now()` readings of iteration `i`. -/
def goProc (clock : Nat → Clk) : List (String × String) → Nat → SysState →
    SysState × List ExecRecord
  | [], _, st => (st, [])
  | f :: fs, i, st =>
    let one := processOne st f (clock i)
    let rest := goProc clock fs (i + 1) one.1
    (rest.1, one.2 :: rest.2)

/-- Embedding of `PromptQueueSystem.process_all_prompts`: list the pending
files once, then process each in order. -/
def process_all_prompts (st : SysState) (clock : Nat → Clk) :
    SysState × List ExecRecord :=
  goProc clock (get_queued_prompts st) 0 st

/-- Stable insertion (descending by name). -/
def insertDesc (x : String × FileMap) : List (String × FileMap) → List (String × FileMap)
  | [] => [x]
  | y :: t => if pyStrLe y.1 x.1 then x :: y :: t else y :: insertDesc x t

/-- Stable descending sort by name, the model of
`run_subdirs.sort(key=lambda x: x.name, reverse=True)`. -/
def sortDesc : List (String × FileMap) → List (String × FileMap)
  | [] => []
  | x :: t => insertDesc x (sortDesc t)

/-- The loop of `get_run_history`: a directory without an
`execution_metadata.json` is skipped; a metadata file that does not parse
as JSON makes `json.loads` raise, modelled by `Except.error` (the code has
no exception handler). -/
def histGo : List (String × FileMap) → List Metadata → Except String (List Metadata)
  | [], acc => Except.ok acc
  | p :: rest, acc =>
    match alookup p.2 "execution_metadata.json" with
    | none => histGo rest acc
    | some (FileContent.json m) => histGo rest (acc ++ [m])
    | some (FileContent.text s) => Except.error s

/-- Embedding of `PromptQueueSystem.get_run_history`: sort the run
subdirectories by name descending and collect their metadata documents. -/
def get_run_history (st : SysState) : Except String (List Metadata) :=
  histGo (sortDesc st.run) []

/-- Content of the file `file` inside run subdirectory `dir`. -/
def fileAt (st : SysState) (dir file : String) : Option FileContent :=
  (alookup st.run dir).bind (fun d => alookup d file)

/-- Whether a run subdirectory holds a metadata document whose
`original_prompt` is `name`. -/
def hasMetaFor (name : String) (d : FileMap) : Bool :=
  match alookup d "execution_metadata.json" with
  | some (FileContent.json m) => m.original_prompt == name
  | _ => false

/-- The archive subdirectory built for the `i`-th processed file when its
directory name is fresh. -/
def newDir (clock : Nat → Clk) (i : Nat) (f : String × String) : String × FileMap :=
  let c := clock i
  let r := process_prompt (read_prompt_content f.1 f.2 c.readAt) c.procAt
  ((c.dirAt ++ "_" ++ stem f.1), buildRunDir [] f.1 f.2 r)

/-- The archive subdirectories a pass creates for the listed files,
starting at clock index `i`. -/
def newDirs (clock : Nat → Clk) : List (String × String) → Nat → List (String × FileMap)
  | [], _ => []
  | f :: fs, i => newDir clock i f :: newDirs clock fs (i + 1)

/-- The stripped non-metadata, non-`---` lines of a file content: exactly
the lines the parser appends to the body. -/
def bodyLinesOf (content : String) : List String :=
  ((pySplitNL (pyStrip content)).map pyStrip).filter
    (fun l => !(pyStartsWith l "#" && pyInChar ':' l) && !(pyStartsWith l "---"))

section Lemmas

theorem mem_keys_iff_any {α : Type} (m : List (String × α)) (k : String) :
    k ∈ keys m ↔ m.any (fun p => p.1 == k) = true := by
  simp [keys, List.any_eq_true]

theorem alookup_eq_none {α : Type} {m : List (String × α)} {k : String}
    (h : k ∉ keys m) : alookup m k = none := by
  induction m with
  | nil => rfl
  | cons p t ih =>
    simp only [keys, List.map_cons, List.mem_cons, not_or] at h
    have hb : (p.1 == k) = false := by
      simp only [beq_eq_false_iff_ne]
      exact fun e => h.1 e.symm
    simp only [alookup]
    rw [if_neg (by simp [hb])]
    exact ih h.2

theorem awrite_of_not_mem {α : Type} {m : List (String × α)} {k : String}
    (h : k ∉ keys m) (v : α) : awrite m k v = m ++ [(k, v)] := by
  unfold awrite
  rw [if_neg]
  intro hany
  exact h ((mem_keys_iff_any m k).mpr hany)

theorem alookup_cons_self {α : Type} (k : String) (v : α) (t : List (String × α)) :
    alookup ((k, v) :: t) k = some v := by
  simp [alookup]

theorem alookup_append {α : Type} (m rest : List (String × α)) (k : String) :
    alookup (m ++ rest) k =
      match alookup m k with
      | some v => some v
      | none => alookup rest k := by
  induction m with
  | nil => rfl
  | cons p t ih =>
    by_cases hp : p.1 = k
    · simp [alookup, hp]
    · have hb : (p.1 == k) = false := by simpa [beq_eq_false_iff_ne] using hp
      simp only [List.cons_append, alookup]
      rw [if_neg (by simp [hb]), if_neg (by simp [hb])]
      exact ih

theorem alookup_map_overwrite {α : Type} (m : List (String × α)) (k : String) (v : α)
    (h : m.any (fun p => p.1 == k) = true) :
    alookup (m.map (fun p => if p.1 == k then (k, v) else p)) k = some v := by
  induction m with
  | nil => simp at h
  | cons p t ih =>
    rw [List.map_cons]
    by_cases hp : p.1 = k
    · have e1 : (if (p.1 == k) = true then (k, v) else p) = (k, v) := by
        rw [if_pos (by simp [hp])]
      rw [e1]
      exact alookup_cons_self k v _
    · have hb : (p.1 == k) = false := by simpa [beq_eq_false_iff_ne] using hp
      have ht : t.any (fun p => p.1 == k) = true := by
        simpa [List.any_cons, hb] using h
      have e1 : (if (p.1 == k) = true then (k, v) else p) = p := by
        rw [if_neg (by simp [hb])]
      rw [e1]
      simp only [alookup]
      rw [if_neg (by simp [hb])]
      exact ih ht

theorem alookup_awrite_self {α : Type} (m : List (String × α)) (k : String) (v : α) :
    alookup (awrite m k v) k = some v := by
  unfold awrite
  by_cases h : m.any (fun p => p.1 == k) = true
  · rw [if_pos h]; exact alookup_map_overwrite m k v h
  · rw [if_neg h]
    rw [alookup_append]
    have hnone : alookup m k = none := by
      apply alookup_eq_none
      intro hk
      exact h ((mem_keys_iff_any m k).mp hk)
    rw [hnone]
    exact alookup_cons_self k v []

theorem alookup_map_overwrite_ne {α : Type} (m : List (String × α)) {k k' : String}
    (v : α) (h : k' ≠ k) :
    alookup (m.map (fun p => if p.1 == k then (k, v) else p)) k' = alookup m k' := by
  induction m with
  | nil => rfl
  | cons p t ih =>
    rw [List.map_cons]
    by_cases hp : p.1 = k
    · have e1 : (if (p.1 == k) = true then (k, v) else p) = (k, v) := by
        rw [if_pos (by simp [hp])]
      rw [e1]
      have h1 : (k == k') = false := by
        simp only [beq_eq_false_iff_ne]
        exact fun e => h e.symm
      have h2 : (p.1 == k') = false := by
        simp only [beq_eq_false_iff_ne]
        rw [hp]
        exact fun e => h e.symm
      simp only [alookup]
      rw [if_neg (by simp [h1]), if_neg (by simp [h2])]
      exact ih
    · have hb : (p.1 == k) = false := by simpa [beq_eq_false_iff_ne] using hp
      have e1 : (if (p.1 == k) = true then (k, v) else p) = p := by
        rw [if_neg (by simp [hb])]
      rw [e1]
      simp only [alookup]
      by_cases hpk' : p.1 = k'
      · rw [if_pos (by simp [hpk']), if_pos (by simp [hpk'])]
      · rw [if_neg (by simp [beq_eq_false_iff_ne, hpk']),
          if_neg (by simp [beq_eq_false_iff_ne, hpk'])]
        exact ih

theorem alookup_awrite_ne {α : Type} (m : List (String × α)) {k k' : String} (v : α)
    (h : k' ≠ k) : alookup (awrite m k v) k' = alookup m k' := by
  unfold awrite
  by_cases hany : m.any (fun p => p.1 == k) = true
  · rw [if_pos hany]
    exact alookup_map_overwrite_ne m v h
  · rw [if_neg hany]
    rw [alookup_append]
    have h1 : (k == k') = false := by
      simp only [beq_eq_false_iff_ne]
      exact fun e => h e.symm
    have e1 : alookup [(k, v)] k' = none := by
      simp only [alookup]
      rw [if_neg (by simp [h1])]
    rw [e1]
    cases alookup m k' <;> rfl

theorem keys_map_overwrite {α : Type} (m : List (String × α)) (k : String) (v : α) :
    keys (m.map (fun p => if p.1 == k then (k, v) else p)) = keys m := by
  induction m with
  | nil => rfl
  | cons p t ih =>
    rw [List.map_cons]
    by_cases hp : p.1 = k
    · have e1 : (if (p.1 == k) = true then (k, v) else p) = (k, v) := by
        rw [if_pos (by simp [hp])]
      rw [e1]
      simp only [keys, List.map_cons] at ih ⊢
      rw [ih, hp]
    · have e1 : (if (p.1 == k) = true then (k, v) else p) = p := by
        rw [if_neg (by simp [beq_eq_false_iff_ne, hp])]
      rw [e1]
      simp only [keys, List.map_cons] at ih ⊢
      rw [ih]

theorem keys_awrite_of_mem {α : Type} {m : List (String × α)} {k : String} (v : α)
    (h : k ∈ keys m) : keys (awrite m k v) = keys m := by
  unfold awrite
  rw [if_pos ((mem_keys_iff_any m k).mp h)]
  exact keys_map_overwrite m k v

theorem insertAsc_perm (x : String × String) (l : List (String × String)) :
    (insertAsc x l).Perm (x :: l) := by
  induction l with
  | nil => exact List.Perm.refl _
  | cons y t ih =>
    simp only [insertAsc]
    by_cases hc : pyStrLe x.1 y.1 = true
    · rw [if_pos hc]
    · rw [if_neg hc]
      exact (ih.cons y).trans (List.Perm.swap x y t)

theorem sortAsc_perm (l : List (String × String)) : (sortAsc l).Perm l := by
  induction l with
  | nil => exact List.Perm.refl _
  | cons x t ih =>
    simp only [sortAsc]
    exact (insertAsc_perm x (sortAsc t)).trans (ih.cons x)

theorem insertDesc_perm (x : String × FileMap) (l : List (String × FileMap)) :
    (insertDesc x l).Perm (x :: l) := by
  induction l with
  | nil => exact List.Perm.refl _
  | cons y t ih =>
    simp only [insertDesc]
    by_cases hc : pyStrLe y.1 x.1 = true
    · rw [if_pos hc]
    · rw [if_neg hc]
      exact (ih.cons y).trans (List.Perm.swap x y t)

theorem sortDesc_perm (l : List (String × FileMap)) : (sortDesc l).Perm l := by
  induction l with
  | nil => exact List.Perm.refl _
  | cons x t ih =>
    simp only [sortDesc]
    exact (insertDesc_perm x (sortDesc t)).trans (ih.cons x)

theorem parseGo_body (lines : List String) (m : List (String × String))
    (b : List String) :
    (parseGo lines m b).2 =
      b ++ (lines.map pyStrip).filter
        (fun l => !(pyStartsWith l "#" && pyInChar ':' l) && !(pyStartsWith l "---")) := by
  induction lines generalizing m b with
  | nil => simp [parseGo]
  | cons line rest ih =>
    simp only [parseGo, List.map_cons]
    by_cases h1 : (pyStartsWith (pyStrip line) "#" && pyInChar ':' (pyStrip line)) = true
    · rw [if_pos h1, List.filter_cons_of_neg (by simp [h1]), ih]
    · rw [if_neg h1]
      by_cases h2 : pyStartsWith (pyStrip line) "---" = true
      · rw [if_pos h2, List.filter_cons_of_neg (by simp [h1, h2]), ih]
      · rw [if_neg h2,
          List.filter_cons_of_pos (by simp [h1, h2]), ih]
        simp

theorem parseGo_body_only (bs : List String) (m : List (String × String))
    (b : List String)
    (hbs : ∀ x ∈ bs, pyStrip x = x ∧
      (pyStartsWith x "#" && pyInChar ':' x) = false ∧ pyStartsWith x "---" = false) :
    parseGo bs m b = (m, b ++ bs) := by
  induction bs generalizing b with
  | nil => simp [parseGo]
  | cons x t ih =>
    obtain ⟨hx1, hx2, hx3⟩ := hbs x (List.mem_cons_self x t)
    simp only [parseGo, hx1]
    rw [if_neg (by simp [hx2]), if_neg (by simp [hx3])]
    rw [ih (b ++ [x]) (fun y hy => hbs y (List.mem_cons_of_mem x hy))]
    simp

theorem hasMetaFor_buildRunDir (nm : String) (d : FileMap) (n c : String)
    (r : ProcessResult) :
    hasMetaFor nm (buildRunDir d n c r) = (n == nm) := by
  unfold hasMetaFor buildRunDir
  rw [alookup_awrite_self]
  rfl

theorem countP_newDirs (clock : Nat → Clk) (fs : List (String × String)) (i : Nat)
    (nm : String) :
    (newDirs clock fs i).countP (fun p => hasMetaFor nm p.2) =
      fs.countP (fun f => f.1 == nm) := by
  induction fs generalizing i with
  | nil => rfl
  | cons f t ih =>
    simp only [newDirs, List.countP_cons, ih, newDir, hasMetaFor_buildRunDir]

theorem countP_key_eq_one {α : Type} (l : List (String × α)) (nm : String) (c : α)
    (hnd : (keys l).Nodup) (hmem : (nm, c) ∈ l) :
    l.countP (fun p => p.1 == nm) = 1 := by
  induction l with
  | nil => simp at hmem
  | cons p t ih =>
    simp only [keys, List.map_cons, List.nodup_cons] at hnd
    rcases List.mem_cons.mp hmem with h | h
    · subst h
      have hz : t.countP (fun p => p.1 == nm) = 0 := by
        rw [List.countP_eq_zero]
        intro q hq hc
        have hmap : q.1 ∈ List.map Prod.fst t := List.mem_map_of_mem Prod.fst hq
        have hqe : q.1 = nm := by simpa using hc
        rw [hqe] at hmap
        exact hnd.1 hmap
      simp [List.countP_cons, hz]
    · have hne : (p.1 == nm) = false := by
        simp only [beq_eq_false_iff_ne]
        intro e
        have hmap : nm ∈ List.map Prod.fst t := List.mem_map_of_mem Prod.fst h
        rw [← e] at hmap
        exact hnd.1 hmap
      rw [List.countP_cons]
      rw [ih (by simpa [keys] using hnd.2) h]
      simp [hne]

theorem goProc_closed (clock : Nat → Clk) (fs : List (String × String)) (i : Nat)
    (st : SysState)
    (hnd : (keys st.run ++ keys (newDirs clock fs i)).Nodup) :
    (goProc clock fs i st).1.run = st.run ++ newDirs clock fs i ∧
    (goProc clock fs i st).1.queued =
      st.queued.filter (fun p => !((fs.map Prod.fst).contains p.1)) := by
  induction fs generalizing i st with
  | nil =>
    constructor
    · simp [goProc, newDirs]
    · simp [goProc]
  | cons f t ih =>
    have hdn : ((clock i).dirAt ++ "_" ++ stem f.1) ∉ keys st.run := by
      have hdisj := List.disjoint_of_nodup_append hnd
      intro hmem
      exact hdisj hmem (by simp [newDirs, keys, newDir])
    have hrun1 : (processOne st f (clock i)).1.run =
        st.run ++ [newDir clock i f] := by
      simp only [processOne, move_to_run, newDir]
      rw [alookup_eq_none hdn]
      exact awrite_of_not_mem hdn _
    have hq1 : (processOne st f (clock i)).1.queued =
        st.queued.filter (fun p => p.1 != f.1) := rfl
    have hnd' : (keys ((processOne st f (clock i)).1.run) ++
        keys (newDirs clock t (i + 1))).Nodup := by
      rw [hrun1]
      have : keys (st.run ++ [newDir clock i f]) =
          keys st.run ++ [(newDir clock i f).1] := by
        simp [keys]
      rw [this, List.append_assoc]
      exact hnd
    obtain ⟨ihr, ihq⟩ := ih (i + 1) (processOne st f (clock i)).1 hnd'
    constructor
    · show (goProc clock t (i + 1) (processOne st f (clock i)).1).1.run = _
      rw [ihr, hrun1, List.append_assoc]
      simp [newDirs]
    · show (goProc clock t (i + 1) (processOne st f (clock i)).1).1.queued = _
      rw [ihq, hq1, List.filter_filter]
      apply List.filter_congr
      intro x _
      simp only [List.map_cons, List.contains_cons]
      cases hx : x.1 == f.1 <;> simp [hx, bne]

/-- A run subdirectory whose metadata file, if present, parses as JSON. -/
def metaOk (d : FileMap) : Bool :=
  match alookup d "execution_metadata.json" with
  | some (FileContent.text _) => false
  | _ => true

/-- Every run subdirectory's metadata file (when present) parses as JSON. -/
def wellFormedRun (st : SysState) : Bool :=
  st.run.all (fun p => metaOk p.2)

/-- Some run subdirectory holds a metadata file that does not parse as JSON. -/
def hasMalformed (st : SysState) : Bool :=
  st.run.any (fun p => !metaOk p.2)

/-- Whether an `Except` result is a success. -/
def isOkB {ε α : Type} : Except ε α → Bool
  | Except.ok _ => true
  | Except.error _ => false

/-- The metadata record the History Reader extracts from a directory, if
its metadata file exists and parses. -/
def parseMeta (d : FileMap) : Option Metadata :=
  match alookup d "execution_metadata.json" with
  | some (FileContent.json m) => some m
  | _ => none

/-- The History Reader contract as the spec words it: the archive
directories sorted by name descending, each contributing its parsed
metadata document, directories without one silently skipped. -/
def history_spec (st : SysState) : List Metadata :=
  (sortDesc st.run).filterMap (fun p => parseMeta p.2)

theorem histGo_wf (l : List (String × FileMap)) (acc : List Metadata)
    (h : ∀ p ∈ l, metaOk p.2 = true) :
    histGo l acc = Except.ok (acc ++ l.filterMap (fun p => parseMeta p.2)) := by
  induction l generalizing acc with
  | nil => simp [histGo]
  | cons p t ih =>
    have hp := h p (List.mem_cons_self p t)
    have ht : ∀ q ∈ t, metaOk q.2 = true := fun q hq => h q (List.mem_cons_of_mem p hq)
    cases hm : alookup p.2 "execution_metadata.json" with
    | none =>
      have e1 : histGo (p :: t) acc = histGo t acc := by
        simp only [histGo]; rw [hm]
      have e2 : parseMeta p.2 = none := by
        unfold parseMeta; rw [hm]
      rw [e1, ih acc ht]
      simp [List.filterMap_cons, e2]
    | some fc =>
      cases fc with
      | text s =>
        exfalso
        unfold metaOk at hp
        rw [hm] at hp
        simp at hp
      | json m =>
        have e1 : histGo (p :: t) acc = histGo t (acc ++ [m]) := by
          simp only [histGo]; rw [hm]
        have e2 : parseMeta p.2 = some m := by
          unfold parseMeta; rw [hm]
        rw [e1, ih (acc ++ [m]) ht]
        simp [List.filterMap_cons, e2]

theorem histGo_bad (l : List (String × FileMap)) (acc : List Metadata)
    (h : l.any (fun p => !metaOk p.2) = true) :
    isOkB (histGo l acc) = false := by
  induction l generalizing acc with
  | nil => simp at h
  | cons p t ih =>
    cases hm : alookup p.2 "execution_metadata.json" with
    | none =>
      have e1 : histGo (p :: t) acc = histGo t acc := by
        simp only [histGo]; rw [hm]
      have ht : t.any (fun p => !metaOk p.2) = true := by
        have hp : metaOk p.2 = true := by unfold metaOk; rw [hm]
        simpa [List.any_cons, hp] using h
      rw [e1]
      exact ih acc ht
    | some fc =>
      cases fc with
      | text s =>
        have e1 : histGo (p :: t) acc = Except.error s := by
          simp only [histGo]; rw [hm]
        rw [e1]
        rfl
      | json m =>
        have e1 : histGo (p :: t) acc = histGo t (acc ++ [m]) := by
          simp only [histGo]; rw [hm]
        have ht : t.any (fun p => !metaOk p.2) = true := by
          have hp : metaOk p.2 = true := by unfold metaOk; rw [hm]
          simpa [List.any_cons, hp] using h
        rw [e1]
        exact ih (acc ++ [m]) ht

theorem fileAt_move_metadata (st : SysState) (name content : String)
    (r : ProcessResult) (td : String) :
    fileAt (move_to_run st name content r td).1 (td ++ "_" ++ stem name)
      "execution_metadata.json" = some (FileContent.json (metadataOf name r)) := by
  show (alookup (awrite st.run (td ++ "_" ++ stem name) _) (td ++ "_" ++ stem name)).bind _ = _
  rw [alookup_awrite_self]
  show alookup (buildRunDir _ name content r) "execution_metadata.json" = _
  unfold buildRunDir
  rw [alookup_awrite_self]

theorem extract_topic_mem_enum (c : String) :
    extract_topic c ∈
      (["emergency_room", "software_deployment", "business_investment",
        "generic_decision"] : List String) := by
  simp only [extract_topic]
  split
  · simp
  · split
    · simp
    · split
      · simp
      · simp

end Lemmas

/-- C3: for every body text, the classifier lowercases it and applies
ordered first-match over the keyword groups: `emergency` wins outright
(regardless of other keywords), then `software`/`deployment`, then
`business`/`investment`, with fallback `generic_decision`. -/
theorem c3_topic_classifier_ordered_first_match (s : String) :
    (pyIn "emergency" (pyLower s) = true → extract_topic s = "emergency_room") ∧
    (pyIn "emergency" (pyLower s) = false →
      (pyIn "software" (pyLower s) || pyIn "deployment" (pyLower s)) = true →
      extract_topic s = "software_deployment") ∧
    (pyIn "emergency" (pyLower s) = false →
      (pyIn "software" (pyLower s) || pyIn "deployment" (pyLower s)) = false →
      (pyIn "business" (pyLower s) || pyIn "investment" (pyLower s)) = true →
      extract_topic s = "business_investment") ∧
    (pyIn "emergency" (pyLower s) = false →
      (pyIn "software" (pyLower s) || pyIn "deployment" (pyLower s)) = false →
      (pyIn "business" (pyLower s) || pyIn "investment" (pyLower s)) = false →
      extract_topic s = "generic_decision") := by
  refine ⟨?_, ?_, ?_, ?_⟩
  · intro h1
    simp [extract_topic, h1]
  · intro h1 h2
    simp [extract_topic, h1, h2]
  · intro h1 h2 h3
    simp [extract_topic, h1, h2, h3]
  · intro h1 h2 h3
    simp [extract_topic, h1, h2, h3]

/-- Witness for C3 at concrete inputs, one per keyword group: the
`emergency` group wins even when `business` also occurs. -/
theorem c3_topic_classifier_ordered_first_match_witness :
    extract_topic "Emergency budget Business plan" = "emergency_room" ∧
    extract_topic "about Deployment" = "software_deployment" ∧
    extract_topic "an Investment" = "business_investment" ∧
    extract_topic "nothing relevant" = "generic_decision" :=
  ⟨(c3_topic_classifier_ordered_first_match "Emergency budget Business plan").1 (by decide),
   (c3_topic_classifier_ordered_first_match "about Deployment").2.1 (by decide) (by decide),
   (c3_topic_classifier_ordered_first_match "an Investment").2.2.1
     (by decide) (by decide) (by decide),
   (c3_topic_classifier_ordered_first_match "nothing relevant").2.2.2
     (by decide) (by decide) (by decide)⟩

/-- C5: a file whose content consists of the metadata lines `#Topic: X`
and `#Description: Y` followed by body lines yields the metadata mapping
`{Topic: X, Description: Y}` and a body equal to the body lines joined by
newline and trimmed. -/
theorem c5_parser_round_trip (name content ts : String) (bs : List String)
    (hsplit : pySplitNL (pyStrip content) = "#Topic: X" :: "#Description: Y" :: bs)
    (hbs : ∀ x ∈ bs, pyStrip x = x ∧
      (pyStartsWith x "#" && pyInChar ':' x) = false ∧
      pyStartsWith x "---" = false) :
    (read_prompt_content name content ts).metadata = [("Topic", "X"), ("Description", "Y")] ∧
    (read_prompt_content name content ts).content = pyStrip (joinNL bs) := by
  have e : read_prompt_content name content ts =
      { filename := name
        content := pyStrip (joinNL bs)
        metadata := [("Topic", "X"), ("Description", "Y")]
        timestamp := ts } := by
    simp only [read_prompt_content]
    rw [hsplit]
    have e1 : parseGo ("#Topic: X" :: "#Description: Y" :: bs) [] [] =
        parseGo bs [("Topic", "X"), ("Description", "Y")] [] := rfl
    rw [e1, parseGo_body_only bs _ [] hbs]
    simp
  rw [e]
  exact ⟨rfl, rfl⟩

/-- Witness for C5 on a concrete file with two body lines. -/
theorem c5_parser_round_trip_witness :
    (read_prompt_content "p.txt" "#Topic: X\n#Description: Y\nhello there\nworld" "T").metadata
      = [("Topic", "X"), ("Description", "Y")] ∧
    (read_prompt_content "p.txt" "#Topic: X\n#Description: Y\nhello there\nworld" "T").content
      = pyStrip (joinNL ["hello there", "world"]) :=
  c5_parser_round_trip "p.txt" "#Topic: X\n#Description: Y\nhello there\nworld" "T"
    ["hello there", "world"] (by decide) (by decide)

/-- C6 counterexample: the line `--- keep me` does not consist solely of a
horizontal-rule marker and is not a metadata line, so per the claim it
should be appended to the body; the parser nevertheless skips it (the code
skips every line merely starting with `---`), leaving body `Patient data`
and empty metadata. -/
theorem c6_counterexample :
    (read_prompt_content "note.txt" "--- keep me\nPatient data" "T").content = "Patient data" ∧
    (read_prompt_content "note.txt" "--- keep me\nPatient data" "T").metadata = [] := by
  exact ⟨rfl, rfl⟩

/-- C6 amended: a line whose stripped form merely starts with `---` (even
with trailing text) is skipped and contributes to neither metadata nor
body; every other non-metadata line is appended to the body, in order, in
stripped form. -/
theorem c6_amended_hr_prefix_lines_skipped (name content ts : String) :
    (read_prompt_content name content ts).content =
      pyStrip (joinNL (bodyLinesOf content)) := by
  simp only [read_prompt_content]
  rw [parseGo_body (pySplitNL (pyStrip content)) [] []]
  rfl

/-- Witness for C6's amended claim on a concrete file mixing metadata,
rule-prefixed, and body lines. -/
theorem c6_amended_hr_prefix_lines_skipped_witness :
    (read_prompt_content "a.md" " hi \n--- rule line\n#k: v\nbye" "T").content =
      pyStrip (joinNL (bodyLinesOf " hi \n--- rule line\n#k: v\nbye")) :=
  c6_amended_hr_prefix_lines_skipped "a.md" " hi \n--- rule line\n#k: v\nbye" "T"

/-- C7: the metadata document written for every processed prompt has
exactly the fields `original_prompt` (the original filename),
`processed_at` (the `datetime.now().isoformat()` reading, modelled by the
clock string), `topic` (a member of the topic enumeration), and
`files_generated` (exactly the two artifact names, which exclude the
relocated original whenever the original is not itself named like an
artifact). -/
theorem c7_metadata_document_schema (st : SysState) (pd : PromptData)
    (name content tp td : String)
    (h1 : name ≠ "decision_logic.txt") (h2 : name ≠ "flowchart.md") :
    fileAt (move_to_run st name content (process_prompt pd tp) td).1
        (td ++ "_" ++ stem name) "execution_metadata.json" =
      some (FileContent.json
        { original_prompt := name
          processed_at := tp
          topic := (process_prompt pd tp).topic
          files_generated := ["decision_logic.txt", "flowchart.md"] }) ∧
    (process_prompt pd tp).topic ∈
      (["emergency_room", "software_deployment", "business_investment",
        "generic_decision"] : List String) ∧
    name ∉ (metadataOf name (process_prompt pd tp)).files_generated := by
  refine ⟨?_, ?_, ?_⟩
  · rw [fileAt_move_metadata]
    rfl
  · exact extract_topic_mem_enum pd.content
  · simp [metadataOf, h1, h2]

/-- Witness for C7 at a concrete prompt and clock. -/
theorem c7_metadata_document_schema_witness :
    fileAt (move_to_run ⟨[], []⟩ "w.txt" "hello"
        (process_prompt (read_prompt_content "w.txt" "hello" "T0") "T1")
        "20240101_000000").1
      ("20240101_000000" ++ "_" ++ stem "w.txt") "execution_metadata.json" =
      some (FileContent.json
        { original_prompt := "w.txt"
          processed_at := "T1"
          topic := (process_prompt (read_prompt_content "w.txt" "hello" "T0") "T1").topic
          files_generated := ["decision_logic.txt", "flowchart.md"] }) ∧
    (process_prompt (read_prompt_content "w.txt" "hello" "T0") "T1").topic ∈
      (["emergency_room", "software_deployment", "business_investment",
        "generic_decision"] : List String) ∧
    "w.txt" ∉ (metadataOf "w.txt"
      (process_prompt (read_prompt_content "w.txt" "hello" "T0") "T1")).files_generated :=
  c7_metadata_document_schema ⟨[], []⟩ (read_prompt_content "w.txt" "hello" "T0")
    "w.txt" "hello" "T1" "20240101_000000" (by decide) (by decide)

/-- C10: a body mentioning `hospital` but none of the classifier keywords
is recorded with topic `generic_decision` in the metadata document while
the generated artifacts are the emergency-room templates: template
selection and topic extraction test different keyword sets. -/
theorem c10_hospital_topic_artifact_disagreement (st : SysState) (pd : PromptData)
    (name content tp td : String)
    (h1 : pyIn "hospital" (pyLower pd.content) = true)
    (h2 : pyIn "emergency" (pyLower pd.content) = false)
    (h3 : pyIn "software" (pyLower pd.content) = false)
    (h4 : pyIn "deployment" (pyLower pd.content) = false)
    (h5 : pyIn "business" (pyLower pd.content) = false)
    (h6 : pyIn "investment" (pyLower pd.content) = false) :
    (process_prompt pd tp).topic = "generic_decision" ∧
    (process_prompt pd tp).logic_text = create_emergency_room_logic.1 ∧
    (process_prompt pd tp).mermaid_chart = create_emergency_room_logic.2 ∧
    fileAt (move_to_run st name content (process_prompt pd tp) td).1
        (td ++ "_" ++ stem name) "execution_metadata.json" =
      some (FileContent.json (metadataOf name (process_prompt pd tp))) ∧
    (metadataOf name (process_prompt pd tp)).topic = "generic_decision" := by
  have htopic : (process_prompt pd tp).topic = "generic_decision" := by
    simp [process_prompt, extract_topic, h2, h3, h4, h5, h6]
  refine ⟨htopic, ?_, ?_, ?_, ?_⟩
  · simp [process_prompt, h1, h2]
  · simp [process_prompt, h1, h2]
  · rw [fileAt_move_metadata]
  · simpa [metadataOf] using htopic

/-- Witness for C10 at a concrete hospital-mentioning prompt. -/
theorem c10_hospital_topic_artifact_disagreement_witness :
    (process_prompt (read_prompt_content "h.txt" "Go to the hospital now" "T0") "T1").topic
      = "generic_decision" ∧
    (process_prompt (read_prompt_content "h.txt" "Go to the hospital now" "T0") "T1").logic_text
      = create_emergency_room_logic.1 ∧
    (process_prompt (read_prompt_content "h.txt" "Go to the hospital now" "T0") "T1").mermaid_chart
      = create_emergency_room_logic.2 ∧
    fileAt (move_to_run ⟨[], []⟩ "h.txt" "Go to the hospital now"
        (process_prompt (read_prompt_content "h.txt" "Go to the hospital now" "T0") "T1")
        "20240101_000000").1
      ("20240101_000000" ++ "_" ++ stem "h.txt") "execution_metadata.json" =
      some (FileContent.json (metadataOf "h.txt"
        (process_prompt (read_prompt_content "h.txt" "Go to the hospital now" "T0") "T1"))) ∧
    (metadataOf "h.txt"
      (process_prompt (read_prompt_content "h.txt" "Go to the hospital now" "T0") "T1")).topic
      = "generic_decision" :=
  c10_hospital_topic_artifact_disagreement ⟨[], []⟩
    (read_prompt_content "h.txt" "Go to the hospital now" "T0")
    "h.txt" "Go to the hospital now" "T1" "20240101_000000"
    (by decide) (by decide) (by decide) (by decide) (by decide) (by decide)

/-- Example archive state for the History Reader: two complete archive
directories plus one without a metadata document. -/
def c8state : SysState :=
  ⟨[],
   [("20240101_120000_a",
     [("execution_metadata.json",
       FileContent.json ⟨"a.txt", "2024-01-01T12:00:00", "generic_decision",
         ["decision_logic.txt", "flowchart.md"]⟩)]),
    ("20240102_090000_b",
     [("execution_metadata.json",
       FileContent.json ⟨"b.txt", "2024-01-02T09:00:00", "business_investment",
         ["decision_logic.txt", "flowchart.md"]⟩)]),
    ("20240103_000000_partial", [("note.txt", FileContent.text "pending")])]⟩

/-- C8: on archive states whose present metadata documents all parse, the
History Reader succeeds and returns exactly the records of the
directories sorted by name descending, silently skipping directories with
no metadata document; in particular `20240102_090000_b`'s record is
returned before `20240101_120000_a`'s. -/
theorem c8_history_descending_and_skips_missing (st : SysState)
    (h : wellFormedRun st = true) :
    get_run_history st = Except.ok (history_spec st) ∧
    get_run_history c8state = Except.ok
      [⟨"b.txt", "2024-01-02T09:00:00", "business_investment",
        ["decision_logic.txt", "flowchart.md"]⟩,
       ⟨"a.txt", "2024-01-01T12:00:00", "generic_decision",
        ["decision_logic.txt", "flowchart.md"]⟩] := by
  constructor
  · unfold get_run_history
    rw [histGo_wf (sortDesc st.run) []
      (fun p hp => List.all_eq_true.mp h p ((sortDesc_perm st.run).mem_iff.mp hp))]
    rw [history_spec]
    rfl
  · rfl

/-- Witness for C8 at the example archive state. -/
theorem c8_history_descending_and_skips_missing_witness :
    wellFormedRun c8state = true ∧
    get_run_history c8state = Except.ok (history_spec c8state) :=
  ⟨by decide, (c8_history_descending_and_skips_missing c8state (by decide)).1⟩

/-- Archive state holding one directory whose metadata document is not
parseable JSON, a directory with no metadata document, and one good
directory that sorts after the malformed one. -/
def c9state : SysState :=
  ⟨[],
   [("20240101_000000_good",
     [("execution_metadata.json",
       FileContent.json ⟨"good.txt", "2024-01-01T00:00:00", "generic_decision",
         ["decision_logic.txt", "flowchart.md"]⟩)]),
    ("20240102_000000_bad",
     [("execution_metadata.json", FileContent.text "this is not json")]),
    ("20240103_000000_nometa", [("note.txt", FileContent.text "pending")])]⟩

/-- C9 counterexample: with a malformed metadata document present, the
History Reader does not skip it and continue — `json.loads` raises and the
whole call fails, returning no records at all (not even the good one). -/
theorem c9_counterexample :
    get_run_history c9state = Except.error "this is not json" := rfl

/-- C9 amended: a directory with no metadata document is silently skipped,
but a metadata document that does not parse as JSON is not skipped: the
unhandled `json.loads` exception aborts the whole history read. -/
theorem c9_amended_malformed_metadata_aborts (st : SysState)
    (h : hasMalformed st = true) :
    isOkB (get_run_history st) = false := by
  unfold get_run_history
  apply histGo_bad
  obtain ⟨p, hp, hbad⟩ := List.any_eq_true.mp h
  exact List.any_eq_true.mpr ⟨p, (sortDesc_perm st.run).mem_iff.mpr hp, hbad⟩

/-- Witness for C9's amended claim at the malformed-metadata state. -/
theorem c9_amended_malformed_metadata_aborts_witness :
    hasMalformed c9state = true ∧ isOkB (get_run_history c9state) = false :=
  ⟨by decide, c9_amended_malformed_metadata_aborts c9state (by decide)⟩

/-- The pre-existing metadata record destroyed in the C4 counterexample. -/
def c4oldMeta : Metadata :=
  ⟨"old.txt", "2024-01-01T11:00:00", "generic_decision",
   ["decision_logic.txt", "flowchart.md"]⟩

/-- State in which the archive directory `20240101_120000_a` already
exists (same second, same base name as the incoming prompt `a.txt`). -/
def c4state : SysState :=
  ⟨[("a.txt", "hello")],
   [("20240101_120000_a", [("execution_metadata.json", FileContent.json c4oldMeta)])]⟩

/-- The processing result for the colliding prompt `a.txt`. -/
def c4result : ProcessResult :=
  process_prompt (read_prompt_content "a.txt" "hello" "2024-01-01T12:00:00") "2024-01-01T12:00:00"

/-- C4 counterexample: archiving `a.txt` when `20240101_120000_a` already
exists neither fails loudly nor disambiguates — the directory list is
unchanged (the existing directory is reused via `mkdir(exist_ok=True)`)
and its metadata document is silently overwritten with the new prompt's
record. -/
theorem c4_counterexample :
    keys (move_to_run c4state "a.txt" "hello" c4result "20240101_120000").1.run =
      ["20240101_120000_a"] ∧
    fileAt (move_to_run c4state "a.txt" "hello" c4result "20240101_120000").1
      "20240101_120000_a" "execution_metadata.json" =
      some (FileContent.json (metadataOf "a.txt" c4result)) ∧
    metadataOf "a.txt" c4result ≠ c4oldMeta := by
  refine ⟨rfl, rfl, by decide⟩

/-- C4 amended: when the computed archive directory name already exists
under the run root, the archiver silently reuses that directory: the run
directory names are unchanged, no error is raised, and the existing
directory's metadata document is overwritten with the new prompt's
record. -/
theorem c4_amended_silent_reuse_and_overwrite (st : SysState)
    (name content : String) (r : ProcessResult) (td : String)
    (h : (td ++ "_" ++ stem name) ∈ keys st.run) :
    keys (move_to_run st name content r td).1.run = keys st.run ∧
    fileAt (move_to_run st name content r td).1 (td ++ "_" ++ stem name)
      "execution_metadata.json" = some (FileContent.json (metadataOf name r)) := by
  constructor
  · exact keys_awrite_of_mem _ h
  · exact fileAt_move_metadata st name content r td

/-- Witness for C4's amended claim at the colliding concrete state. -/
theorem c4_amended_silent_reuse_and_overwrite_witness :
    keys (move_to_run c4state "a.txt" "hello" c4result "20240101_120000").1.run =
      keys c4state.run ∧
    fileAt (move_to_run c4state "a.txt" "hello" c4result "20240101_120000").1
      ("20240101_120000" ++ "_" ++ stem "a.txt") "execution_metadata.json" =
      some (FileContent.json (metadataOf "a.txt" c4result)) :=
  c4_amended_silent_reuse_and_overwrite c4state "a.txt" "hello" c4result
    "20240101_120000" (by decide)

/-- The pending file of the spec's end-to-end scenario. -/
def c2content : String := "# Topic: Emergency\n\nPatient has chest pain"

/-- Initial state of the end-to-end scenario: `note.txt` pending, empty
archive. -/
def c2state : SysState := ⟨[("note.txt", c2content)], []⟩

/-- C2 counterexample: on the spec's scenario the archived metadata topic
is `generic_decision`, not `emergency_room`, and `decision_logic.txt`
holds the business-investment template, not the emergency-room one: the
`# Topic: Emergency` line goes to metadata, so the classified body
`Patient has chest pain` contains no keyword. -/
theorem c2_counterexample :
    fileAt (process_all_prompts c2state (fun _ => ⟨"T0", "T1", "20240101_120000"⟩)).1
        "20240101_120000_note" "execution_metadata.json" =
      some (FileContent.json ⟨"note.txt", "T1", "generic_decision",
        ["decision_logic.txt", "flowchart.md"]⟩) ∧
    fileAt (process_all_prompts c2state (fun _ => ⟨"T0", "T1", "20240101_120000"⟩)).1
        "20240101_120000_note" "decision_logic.txt" =
      some (FileContent.text create_business_investment_logic.1) ∧
    ("generic_decision" : String) ≠ "emergency_room" ∧
    create_business_investment_logic.1 ≠ create_emergency_room_logic.1 := by
  refine ⟨rfl, rfl, by decide, by decide⟩

/-- C2 amended: processing the scenario file `note.txt` produces a single
archive directory `<ts>_note` containing `note.txt` (original content),
`decision_logic.txt` equal to the business-investment logic template,
`flowchart.md` equal to the business-investment Mermaid template, and an
`execution_metadata.json` whose topic is `generic_decision`. -/
theorem c2_amended_scenario_business_generic (tr tp td : String) :
    (process_all_prompts c2state (fun _ => ⟨tr, tp, td⟩)).1.queued = [] ∧
    keys (process_all_prompts c2state (fun _ => ⟨tr, tp, td⟩)).1.run =
      [td ++ "_" ++ "note"] ∧
    fileAt (process_all_prompts c2state (fun _ => ⟨tr, tp, td⟩)).1
      (td ++ "_" ++ "note") "note.txt" = some (FileContent.text c2content) ∧
    fileAt (process_all_prompts c2state (fun _ => ⟨tr, tp, td⟩)).1
      (td ++ "_" ++ "note") "decision_logic.txt" =
      some (FileContent.text create_business_investment_logic.1) ∧
    fileAt (process_all_prompts c2state (fun _ => ⟨tr, tp, td⟩)).1
      (td ++ "_" ++ "note") "flowchart.md" =
      some (FileContent.text create_business_investment_logic.2) ∧
    fileAt (process_all_prompts c2state (fun _ => ⟨tr, tp, td⟩)).1
      (td ++ "_" ++ "note") "execution_metadata.json" =
      some (FileContent.json ⟨"note.txt", tp, "generic_decision",
        ["decision_logic.txt", "flowchart.md"]⟩) := by
  have hst : (process_all_prompts c2state (fun _ => ⟨tr, tp, td⟩)).1 =
      { queued := []
        run := [(td ++ "_" ++ "note",
          buildRunDir [] "note.txt" c2content
            (process_prompt (read_prompt_content "note.txt" c2content tr) tp))] } := rfl
  refine ⟨?_, ?_, ?_, ?_, ?_, ?_⟩
  · rw [hst]
  · rw [hst]
    rfl
  · rw [hst]
    show (alookup [(td ++ "_" ++ "note", _)] (td ++ "_" ++ "note")).bind _ = _
    rw [alookup_cons_self]
    rfl
  · rw [hst]
    show (alookup [(td ++ "_" ++ "note", _)] (td ++ "_" ++ "note")).bind _ = _
    rw [alookup_cons_self]
    rfl
  · rw [hst]
    show (alookup [(td ++ "_" ++ "note", _)] (td ++ "_" ++ "note")).bind _ = _
    rw [alookup_cons_self]
    rfl
  · rw [hst]
    show (alookup [(td ++ "_" ++ "note", _)] (td ++ "_" ++ "note")).bind _ = _
    rw [alookup_cons_self]
    rfl

/-- Witness for C2's amended claim at a concrete clock. -/
theorem c2_amended_scenario_business_generic_witness :
    (process_all_prompts c2state (fun _ => ⟨"T0", "T1", "20240101_000000"⟩)).1.queued = [] ∧
    keys (process_all_prompts c2state (fun _ => ⟨"T0", "T1", "20240101_000000"⟩)).1.run =
      ["20240101_000000" ++ "_" ++ "note"] ∧
    fileAt (process_all_prompts c2state (fun _ => ⟨"T0", "T1", "20240101_000000"⟩)).1
      ("20240101_000000" ++ "_" ++ "note") "note.txt" =
      some (FileContent.text c2content) ∧
    fileAt (process_all_prompts c2state (fun _ => ⟨"T0", "T1", "20240101_000000"⟩)).1
      ("20240101_000000" ++ "_" ++ "note") "decision_logic.txt" =
      some (FileContent.text create_business_investment_logic.1) ∧
    fileAt (process_all_prompts c2state (fun _ => ⟨"T0", "T1", "20240101_000000"⟩)).1
      ("20240101_000000" ++ "_" ++ "note") "flowchart.md" =
      some (FileContent.text create_business_investment_logic.2) ∧
    fileAt (process_all_prompts c2state (fun _ => ⟨"T0", "T1", "20240101_000000"⟩)).1
      ("20240101_000000" ++ "_" ++ "note") "execution_metadata.json" =
      some (FileContent.json ⟨"note.txt", "T1", "generic_decision",
        ["decision_logic.txt", "flowchart.md"]⟩) :=
  c2_amended_scenario_business_generic "T0" "T1" "20240101_000000"

/-- C1: every pending file with a recognized extension is gone from the
pending directory after a pass and exactly one archive directory's
metadata document names it — under the uniqueness side conditions the spec
itself assumes: pending file names are distinct, the timestamped
directory names generated for the pass are fresh and pairwise distinct,
and no pre-existing archive record already names the file. -/
theorem c1_pass_moves_pending_file_to_unique_archive (st0 : SysState)
    (clock : Nat → Clk) (name content : String)
    (hmem : (name, content) ∈ st0.queued)
    (hext : isQueuedName name = true)
    (hqnd : (keys st0.queued).Nodup)
    (hfresh : (keys st0.run ++ keys (newDirs clock (get_queued_prompts st0) 0)).Nodup)
    (hold : ∀ p ∈ st0.run, hasMetaFor name p.2 = false) :
    name ∉ keys (process_all_prompts st0 clock).1.queued ∧
    (process_all_prompts st0 clock).1.run.countP
      (fun p => hasMetaFor name p.2) = 1 := by
  have hfiles_mem : (name, content) ∈ get_queued_prompts st0 := by
    unfold get_queued_prompts
    exact (sortAsc_perm _).mem_iff.mpr (List.mem_filter.mpr ⟨hmem, hext⟩)
  have hfiles_nd : (keys (get_queued_prompts st0)).Nodup := by
    unfold get_queued_prompts
    have hperm := (sortAsc_perm (st0.queued.filter (fun p => isQueuedName p.1))).map Prod.fst
    refine hperm.nodup_iff.mpr ?_
    exact ((List.filter_sublist st0.queued).map Prod.fst).nodup hqnd
  obtain ⟨hrun, hqueued⟩ := goProc_closed clock (get_queued_prompts st0) 0 st0 hfresh
  constructor
  · show name ∉ keys (goProc clock (get_queued_prompts st0) 0 st0).1.queued
    rw [hqueued]
    intro hk
    simp only [keys, List.mem_map] at hk
    obtain ⟨p, hpmem, hpeq⟩ := hk
    have hco := (List.mem_filter.mp hpmem).2
    have hn : name ∈ (get_queued_prompts st0).map Prod.fst :=
      List.mem_map_of_mem Prod.fst hfiles_mem
    rw [hpeq] at hco
    have : ((get_queued_prompts st0).map Prod.fst).contains name = true := by
      simpa using hn
    rw [this] at hco
    simp at hco
  · show (goProc clock (get_queued_prompts st0) 0 st0).1.run.countP
        (fun p => hasMetaFor name p.2) = 1
    rw [hrun, List.countP_append]
    have h0 : st0.run.countP (fun p => hasMetaFor name p.2) = 0 := by
      rw [List.countP_eq_zero]
      intro p hp
      simp [hold p hp]
    rw [h0, countP_newDirs]
    simpa using countP_key_eq_one (get_queued_prompts st0) name content hfiles_nd hfiles_mem

/-- Pending state for the C1 witness: one recognized file, empty archive. -/
def c1state : SysState := ⟨[("alpha.txt", "business plan")], []⟩

/-- Clock for the C1 witness. -/
def c1clock : Nat → Clk :=
  fun _ => ⟨"2024-01-01T00:00:00", "2024-01-01T00:00:01", "20240101_000000"⟩

/-- Witness for C1 at a concrete one-file pending state. -/
theorem c1_pass_moves_pending_file_to_unique_archive_witness :
    "alpha.txt" ∉ keys (process_all_prompts c1state c1clock).1.queued ∧
    (process_all_prompts c1state c1clock).1.run.countP
      (fun p => hasMetaFor "alpha.txt" p.2) = 1 :=
  c1_pass_moves_pending_file_to_unique_archive c1state c1clock "alpha.txt"
    "business plan" (by decide) (by decide) (by decide) (by decide) (by decide)

end PromptQueue
